import Mathlib

/-
Verification development for the UDP connection demultiplexer in src/udp.rs.

The embedding models the asynchronous code as explicit state passing:
  - tokio Notify is modelled with latched one-shot semantics: a stored permit
    (set by notify_one when no waiter consumes it) plus a generation counter
    incremented by notify_waiters.  A Notified subscription snapshots the
    generation at creation time; polling it completes immediately when the
    generation has advanced (this matches the tokio behaviour that
    notify_waiters wakes Notified futures created before the call, even ones
    not yet polled) or when a permit is available.  This single-waiter model
    is observationally faithful here because each Notify in the source has at
    most one outstanding Notified future.
  - tokio::time::Interval is a next-deadline plus a period; poll_tick at time
    now fires when the deadline has been reached and then advances the
    deadline by one period (tokio Burst missed-tick behaviour).
  - poll_read, poll_flush, poll_shutdown take the external world (time, the
    outcome of the socket receive, send readiness) as an explicit environment
    and return a Poll result together with the updated stream state.
  - the acceptor loop body of run_server is driven by a finite script of
    peek results; gate awaits that block on the other task are modelled as
    completing, which is sound for the registry-shape claims proved below.
Socket addresses are modelled as natural numbers (the client-side connect
additionally records the address family).
-/

deriving instance DecidableEq for Except

namespace Udp

/-- Result of polling an asynchronous operation once. -/
inductive Poll (α : Type) where
  | ready (val : α)
  | pending
deriving DecidableEq

/-- Error kinds surfaced through io::Error in the source. -/
inductive ErrorKind where
  | timedOut
  | other (code : Nat)
deriving DecidableEq

/-- Model of io::Error: a kind plus the formatted message. -/
structure IoError where
  kind : ErrorKind
  msg : String
deriving DecidableEq

/-- The error built at udp.rs line 141: Error::new(ErrorKind::TimedOut,
format!(...)) carrying the peer address in the message. -/
def timeoutError (peer : Nat) : IoError :=
  { kind := ErrorKind.timedOut, msg := "UDP stream timeout with " ++ toString peer }

/-- A transient receive error surfaced by poll_recv_from. -/
def recvError (code : Nat) : IoError :=
  { kind := ErrorKind.other code, msg := "recv error" }

/-- Model of tokio::sync::Notify: a latched permit (notify_one) and the count
of notify_waiters calls. -/
structure Notify where
  permit : Bool
  gen : Nat
deriving DecidableEq

/-- State of a Notified subscription: before first completion, or completed. -/
inductive NotifiedState where
  | init
  | done
deriving DecidableEq

/-- A Notified future: the notify_waiters generation observed at creation
plus its completion state. -/
structure Notified where
  gen : Nat
  state : NotifiedState
deriving DecidableEq

/-- Notify::notified creates a subscription snapshotting the current
generation. -/
def Notify.notified (n : Notify) : Notified :=
  { gen := n.gen, state := NotifiedState.init }

/-- Notify::notify_one: with no waiter the signal is latched as a permit; a
registered waiter consumes the permit at its next poll (single-waiter
model). -/
def Notify.notifyOne (n : Notify) : Notify :=
  { n with permit := true }

/-- Notify::notify_waiters: bumps the generation; Notified futures created
before the call complete at their next poll, and no permit is stored. -/
def Notify.notifyWaiters (n : Notify) : Notify :=
  { n with gen := n.gen + 1 }

/-- Polling a Notified subscription against its Notify.  Completes when the
generation has advanced since creation or when a permit is available
(consuming it); otherwise stays pending. -/
def pollNotified (n : Notify) (f : Notified) : Poll Unit × Notify × Notified :=
  match f.state with
  | NotifiedState.done => (Poll.ready (), n, f)
  | NotifiedState.init =>
      if f.gen ≠ n.gen then
        (Poll.ready (), n, { f with state := NotifiedState.done })
      else if n.permit then
        (Poll.ready (), { n with permit := false }, { f with state := NotifiedState.done })
      else
        (Poll.pending, n, f)

/-- The IoInner gate shared between a peer stream and the acceptor. -/
structure IoInner where
  hasDataToRead : Notify
  hasReadData : Notify
deriving DecidableEq

/-- Model of tokio::time::Interval: the deadline of the next tick and the
period. -/
structure Interval where
  nextDeadline : Nat
  period : Nat
deriving DecidableEq

/-- Interval::poll_tick at time now: fires when the deadline is reached and
advances the deadline by one period (Burst missed-tick behaviour). -/
def Interval.pollTick (iv : Interval) (now : Nat) : Bool × Interval :=
  if iv.nextDeadline ≤ now then
    (true, { nextDeadline := iv.nextDeadline + iv.period, period := iv.period })
  else
    (false, iv)

/-- Model of UdpStream (udp.rs lines 65 to 77).  The shared socket handle is
left to the read environment; the weak registry reference is supplied to
dropStream as the result of upgrading it. -/
structure UdpStream where
  peer : Nat
  watchdogDeadline : Option Interval
  dataReadBeforeDeadline : Bool
  pendingNotification : Option Notified
  io : IoInner
deriving DecidableEq

/-- UdpStream::new (udp.rs lines 95 to 123): fresh gate, watchdog interval
starting one full period after creation (interval_at now + timeout), activity
flag unset, and a pre-established data-available subscription. -/
def UdpStream.new (peer : Nat) (watchdog : Option Nat) (now : Nat) : UdpStream :=
  let io : IoInner :=
    { hasDataToRead := { permit := false, gen := 0 }
      hasReadData := { permit := false, gen := 0 } }
  { peer := peer
    watchdogDeadline := watchdog.map (fun t => { nextDeadline := now + t, period := t })
    dataReadBeforeDeadline := false
    pendingNotification := some io.hasDataToRead.notified
    io := io }

/-- Outcome of socket.poll_recv_from for one poll. -/
inductive RecvOutcome where
  | pending
  | ok (sender : Nat) (len : Nat)
  | err (code : Nat)
deriving DecidableEq

/-- The external world seen by one invocation of poll_read. -/
structure ReadEnv where
  now : Nat
  recv : RecvOutcome
deriving DecidableEq

/-- The receive stage of poll_read (udp.rs lines 154 to 160): non-blocking
receive; on success set the activity flag, install a fresh data-available
subscription and signal data-consumed. -/
def recvStage (s : UdpStream) (env : ReadEnv) : Poll (Except IoError Nat) × UdpStream :=
  match env.recv with
  | RecvOutcome.pending => (Poll.pending, s)
  | RecvOutcome.err c => (Poll.ready (Except.error (recvError c)), s)
  | RecvOutcome.ok _ len =>
      (Poll.ready (Except.ok len),
        { s with
            dataReadBeforeDeadline := true
            pendingNotification := some s.io.hasDataToRead.notified
            io := { s.io with hasReadData := s.io.hasReadData.notifyOne } })

/-- The notification stage of poll_read (udp.rs lines 149 to 152): if a
pending subscription exists, suspend on it; once it completes, drop it and
fall through to the receive. -/
def pollReadAfterWatchdog (s : UdpStream) (env : ReadEnv) : Poll (Except IoError Nat) × UdpStream :=
  match s.pendingNotification with
  | some f =>
      let r := pollNotified s.io.hasDataToRead f
      match r.1 with
      | Poll.pending =>
          (Poll.pending,
            { s with
                io := { s.io with hasDataToRead := r.2.1 }
                pendingNotification := some r.2.2 })
      | Poll.ready _ =>
          recvStage
            { s with
                io := { s.io with hasDataToRead := r.2.1 }
                pendingNotification := none } env
  | none => recvStage s env

/-- UdpStream poll_read (udp.rs lines 127 to 161).  Watchdog stage first: if
the tick has fired, either consume the activity flag, poll the tick once more
and return Pending, or fail with the timeout error; otherwise proceed to the
notification and receive stages. -/
def pollRead (s : UdpStream) (env : ReadEnv) : Poll (Except IoError Nat) × UdpStream :=
  match s.watchdogDeadline with
  | some iv =>
      if iv.nextDeadline ≤ env.now then
        if s.dataReadBeforeDeadline then
          (Poll.pending,
            { s with
                dataReadBeforeDeadline := false
                watchdogDeadline :=
                  some ((Interval.mk (iv.nextDeadline + iv.period) iv.period).pollTick env.now).2 })
        else
          (Poll.ready (Except.error (timeoutError s.peer)),
            { s with
                watchdogDeadline := some (Interval.mk (iv.nextDeadline + iv.period) iv.period) })
      else
        pollReadAfterWatchdog s env
  | none => pollReadAfterWatchdog s env

/-- PinnedDrop for UdpStream (udp.rs lines 79 to 92): push the peer into the
deletion queue when the weak registry reference upgrades, clear the pending
subscription, and signal data-consumed.  The function is total: with a dead
registry it performs no enqueue and cannot panic. -/
def dropStream (s : UdpStream) (upgraded : Option (List Nat)) : Option (List Nat) × UdpStream :=
  let queueAfter : Option (List Nat) :=
    match upgraded with
    | some q => some (q ++ [s.peer])
    | none => none
  (queueAfter,
    { s with
        pendingNotification := none
        io := { s.io with hasReadData := s.io.hasReadData.notifyOne } })

/-- UdpStream poll_flush (udp.rs lines 169 to 171): waits for the socket to
be send-ready and does nothing else. -/
def UdpStream.pollFlush (sendReady : Bool) : Poll (Except IoError Unit) :=
  if sendReady then Poll.ready (Except.ok ()) else Poll.pending

/-- UdpStream poll_shutdown (udp.rs lines 173 to 175): no socket operation,
immediate success. -/
def UdpStream.pollShutdown : Poll (Except IoError Unit) :=
  Poll.ready (Except.ok ())

/-- MyUdpSocket poll_flush (udp.rs lines 263 to 265): returns success
immediately, ignoring send readiness. -/
def MyUdpSocket.pollFlush (_sendReady : Bool) : Poll (Except IoError Unit) :=
  Poll.ready (Except.ok ())

/-- MyUdpSocket poll_shutdown (udp.rs lines 267 to 269): no socket operation,
immediate success. -/
def MyUdpSocket.pollShutdown : Poll (Except IoError Unit) :=
  Poll.ready (Except.ok ())

/-- Sequence of poll_read results along a list of environments, threading the
stream state. -/
def pollResults (s : UdpStream) : List ReadEnv → List (Poll (Except IoError Nat))
  | [] => []
  | e :: es => (pollRead s e).1 :: pollResults (pollRead s e).2 es

/-- One entry of a read trace: the poll result together with whether the poll
observed a fired watchdog tick on entry. -/
structure TraceEntry where
  result : Poll (Except IoError Nat)
  tickObserved : Bool
deriving DecidableEq

/-- Read trace along a list of environments, recording for each poll whether
the watchdog tick had fired when the poll started. -/
def readTrace : UdpStream → List ReadEnv → List TraceEntry
  | _, [] => []
  | s, e :: es =>
      let fired : Bool :=
        match s.watchdogDeadline with
        | some iv => decide (iv.nextDeadline ≤ e.now)
        | none => false
      { result := (pollRead s e).1, tickObserved := fired } :: readTrace (pollRead s e).2 es

/-- True when the watchdog tick of the stream has not yet fired at the given
time (vacuously true without a watchdog). -/
def tickNotFiredB (s : UdpStream) (now : Nat) : Bool :=
  match s.watchdogDeadline with
  | some iv => decide (now < iv.nextDeadline)
  | none => true

/-- True when polling the given subscription against the given Notify would
complete immediately. -/
def notifReadyB (n : Notify) (f : Notified) : Bool :=
  match f.state with
  | NotifiedState.done => true
  | NotifiedState.init => decide (f.gen ≠ n.gen) || n.permit

/-- True when the poll result is a TimedOut error. -/
def isTimedOutErr : Poll (Except IoError Nat) → Bool
  | Poll.ready (Except.error e) => decide (e.kind = ErrorKind.timedOut)
  | _ => false

/-- Model of UdpServer (udp.rs lines 30 to 35): the peer registry, the
deferred-deletion queue and the configured idle timeout.  The listening
socket handle is left to the environment. -/
structure UdpServer where
  peers : List (Nat × IoInner)
  keysToDelete : List Nat
  cnxTimeout : Option Nat
deriving DecidableEq

/-- HashMap lookup on the association-list model of the peer map. -/
def lookupA : List (Nat × IoInner) → Nat → Option IoInner
  | [], _ => none
  | p :: rest, a => if p.1 = a then some p.2 else lookupA rest a

/-- HashMap::remove on the association-list model (keys are unique, so
removing every matching entry coincides with removing the one entry). -/
def removeKey : List (Nat × IoInner) → Nat → List (Nat × IoInner)
  | [], _ => []
  | p :: rest, q => if p.1 = q then removeKey rest q else p :: removeKey rest q

/-- In-place update of the value stored under an existing key (the shared
IoInner mutated through its Arc in the source). -/
def updateKey : List (Nat × IoInner) → Nat → IoInner → List (Nat × IoInner)
  | [], _, _ => []
  | p :: rest, a, v => if p.1 = a then (a, v) :: updateKey rest a v else p :: updateKey rest a v

/-- UdpServer::clean_dead_keys (udp.rs lines 46 to 59): when the deletion
queue is nonempty, remove every listed key from the peer map and clear the
queue. -/
def cleanDeadKeys (srv : UdpServer) : UdpServer :=
  if srv.keysToDelete.length = 0 then srv
  else
    { srv with
        peers := srv.keysToDelete.foldl removeKey srv.peers
        keysToDelete := [] }

/-- Outcome of listener.peek_sender for one acceptor iteration. -/
inductive PeekResult where
  | ok (addr : Nat)
  | err (code : Nat)
deriving DecidableEq

/-- Result of one unfold step of the acceptor sequence in run_server. -/
inductive StepResult where
  | yield (item : Except IoError UdpStream) (srv : UdpServer)
  | terminated (srv : UdpServer)
  | outOfFuel (srv : UdpServer)
deriving DecidableEq

/-- The server state carried by a step result. -/
def StepResult.server : StepResult → UdpServer
  | StepResult.yield _ srv => srv
  | StepResult.terminated srv => srv
  | StepResult.outOfFuel srv => srv

/-- The stream handed out for a new peer (udp.rs lines 220 to 230):
UdpStream::new followed by notify_waiters on the shared has_data_to_read
gate, which latches the pre-established subscription. -/
def newPeerStream (addr : Nat) (cnxTimeout : Option Nat) (now : Nat) : UdpStream :=
  let s := UdpStream.new addr cnxTimeout now
  { s with io := { s.io with hasDataToRead := s.io.hasDataToRead.notifyWaiters } }

/-- One unfold step of the acceptor (the loop of udp.rs lines 203 to 233),
driven by a finite script of peek results.  Each iteration sweeps the
registry, peeks the next sender, signals a known peer and loops (the await
of has_read_data is modelled as completing, consuming a pending signal), or
mints, latches, registers and yields a stream for an unknown peer.  A peek
error ends the sequence.  An exhausted script means the peek is still
pending. -/
def acceptorStep : UdpServer → Nat → List PeekResult → StepResult
  | srv, _, [] => StepResult.outOfFuel (cleanDeadKeys srv)
  | srv, now, p :: rest =>
      let srv1 := cleanDeadKeys srv
      match p with
      | PeekResult.err _ => StepResult.terminated srv1
      | PeekResult.ok addr =>
          match lookupA srv1.peers addr with
          | some io =>
              let io2 : IoInner :=
                { hasDataToRead := io.hasDataToRead.notifyOne
                  hasReadData := { io.hasReadData with permit := false } }
              acceptorStep { srv1 with peers := updateKey srv1.peers addr io2 } now rest
          | none =>
              let stream := newPeerStream addr srv1.cnxTimeout now
              StepResult.yield (Except.ok stream)
                { srv1 with peers := (addr, stream.io) :: srv1.peers }

/-- An address for the client-side connect: family plus identity. -/
structure Addr where
  v6 : Bool
  id : Nat
deriving DecidableEq

/-- Outcome of one candidate attempt in connect (udp.rs lines 286 to 318):
the fresh bind may fail, the timed connect may succeed, fail with an error,
or exceed the per-attempt timeout. -/
inductive ConnectAttempt where
  | ok
  | bindErr (code : Nat)
  | connErr (code : Nat)
  | timedOut
deriving DecidableEq

/-- The address family of the fresh local socket bound for a candidate: the
source matches on the candidate and binds the same family. -/
def bindFamily (a : Addr) : Bool :=
  a.v6

/-- The environment of connect: the resolve outcome and the outcome of each
candidate attempt. -/
structure ConnectEnv where
  resolved : Except Nat (List Addr)
  attempt : Addr → ConnectAttempt

/-- The candidate loop of connect (udp.rs lines 286 to 318): stop at the
first successful connect; a connect error replaces last_err; bind errors and
per-attempt timeouts leave last_err untouched. -/
def connectLoop (attempt : Addr → ConnectAttempt) : List Addr → Option Nat → Option Addr × Option Nat
  | [], lastErr => (none, lastErr)
  | a :: rest, lastErr =>
      match attempt a with
      | ConnectAttempt.ok => (some a, lastErr)
      | ConnectAttempt.bindErr _ => connectLoop attempt rest lastErr
      | ConnectAttempt.connErr e => connectLoop attempt rest (some e)
      | ConnectAttempt.timedOut => connectLoop attempt rest lastErr

/-- Result of connect (udp.rs lines 272 to 325). -/
inductive ConnectResult where
  | ok (addr : Addr)
  | resolveErr (code : Nat)
  | exhausted (lastErr : Option Nat)
deriving DecidableEq

/-- connect (udp.rs lines 272 to 325): a resolve failure returns
immediately; otherwise run the candidate loop and either wrap the connected
socket or fail carrying last_err. -/
def connect (env : ConnectEnv) : ConnectResult :=
  match env.resolved with
  | Except.error e => ConnectResult.resolveErr e
  | Except.ok addrs =>
      match connectLoop env.attempt addrs none with
      | (some a, _) => ConnectResult.ok a
      | (none, lastErr) => ConnectResult.exhausted lastErr

/-- The trace of candidates actually attempted, each with the family of the
local socket bound for it: every candidate up to and including the first
successful one, in resolution order. -/
def attemptTrace (attempt : Addr → ConnectAttempt) : List Addr → List (Addr × Bool)
  | [] => []
  | a :: rest =>
      (a, bindFamily a) ::
        match attempt a with
        | ConnectAttempt.ok => []
        | _ => attemptTrace attempt rest

/-- The last connect error over a candidate list, with accumulator, mirroring
how last_err is threaded through the loop. -/
def lastConnErrAux (attempt : Addr → ConnectAttempt) : List Addr → Option Nat → Option Nat
  | [], acc => acc
  | a :: rest, acc =>
      match attempt a with
      | ConnectAttempt.connErr e => lastConnErrAux attempt rest (some e)
      | _ => lastConnErrAux attempt rest acc

/-- The last connect error over a candidate list. -/
def lastConnErr (attempt : Addr → ConnectAttempt) (addrs : List Addr) : Option Nat :=
  lastConnErrAux attempt addrs none

/-- Stated from the words of the claim, for comparison with the code: the
last error observed across candidates, counting bind failures as well as
connect failures (per-attempt timeouts produce no io error value). -/
def lastErrorObservedSpec (attempt : Addr → ConnectAttempt) : List Addr → Option Nat → Option Nat
  | [], acc => acc
  | a :: rest, acc =>
      match attempt a with
      | ConnectAttempt.ok => acc
      | ConnectAttempt.bindErr e => lastErrorObservedSpec attempt rest (some e)
      | ConnectAttempt.connErr e => lastErrorObservedSpec attempt rest (some e)
      | ConnectAttempt.timedOut => lastErrorObservedSpec attempt rest acc

/-- Stated from the words of the claim, for comparison with the code: flush
is a no-op beyond waiting for the socket send-readiness. -/
def flushSpec (sendReady : Bool) : Poll (Except IoError Unit) :=
  if sendReady then Poll.ready (Except.ok ()) else Poll.pending

theorem lookupA_removeKey (m : List (Nat × IoInner)) (q k : Nat) :
    lookupA (removeKey m q) k = if k = q then none else lookupA m k := by
  induction m with
  | nil => simp [removeKey, lookupA]
  | cons p rest ih =>
      simp only [removeKey, lookupA]
      by_cases h1 : p.1 = q
      · by_cases h2 : k = q
        · rw [if_pos h2] at ih ⊢
          simp [h1, ih]
        · have h3 : p.1 ≠ k := by
            intro hc
            exact h2 (hc ▸ h1)
          have h4 : q ≠ k := fun hc => h2 hc.symm
          simp [h1, h2, h3, h4, ih]
      · by_cases h2 : p.1 = k
        · have h3 : k ≠ q := by
            intro hc
            exact h1 (by rw [h2, hc])
          simp [h1, h2, h3, lookupA]
        · simp [h1, h2, lookupA, ih]

theorem lookupA_foldl_removeKey (keys : List Nat) :
    ∀ (m : List (Nat × IoInner)) (k : Nat),
      lookupA (keys.foldl removeKey m) k = if k ∈ keys then none else lookupA m k := by
  induction keys with
  | nil => intro m k; simp
  | cons q rest ih =>
      intro m k
      simp only [List.foldl_cons, ih, lookupA_removeKey, List.mem_cons]
      by_cases h1 : k ∈ rest <;> by_cases h2 : k = q <;> simp [h1, h2]

theorem cleanDeadKeys_lookup (srv : UdpServer) (k : Nat) :
    lookupA (cleanDeadKeys srv).peers k =
      if k ∈ srv.keysToDelete then none else lookupA srv.peers k := by
  unfold cleanDeadKeys
  by_cases h : srv.keysToDelete.length = 0
  · have hnil : srv.keysToDelete = [] := List.length_eq_zero.mp h
    simp [h, hnil]
  · simp [h, lookupA_foldl_removeKey]

theorem cleanDeadKeys_queue (srv : UdpServer) : (cleanDeadKeys srv).keysToDelete = [] := by
  unfold cleanDeadKeys
  by_cases h : srv.keysToDelete.length = 0
  · simp [h, List.length_eq_zero.mp h]
  · simp [h]

theorem cleanDeadKeys_cnx (srv : UdpServer) :
    (cleanDeadKeys srv).cnxTimeout = srv.cnxTimeout := by
  unfold cleanDeadKeys
  by_cases h : srv.keysToDelete.length = 0 <;> simp [h]

theorem lookupA_updateKey_isSome (m : List (Nat × IoInner)) (a : Nat) (v : IoInner) (k : Nat) :
    (lookupA (updateKey m a v) k).isSome = (lookupA m k).isSome := by
  induction m with
  | nil => rfl
  | cons p rest ih =>
      simp only [updateKey, lookupA]
      by_cases h1 : p.1 = a
      · by_cases h2 : p.1 = k
        · have h3 : a = k := by rw [← h1, h2]
          simp [h1, h2, h3, lookupA]
        · have h3 : a ≠ k := by
            intro hc
            exact h2 (by rw [h1, hc])
          simp [h1, h2, h3, lookupA, ih]
      · by_cases h2 : p.1 = k
        · have h3 : ¬ k = a := fun hc => h1 (h2.trans hc)
          simp [h2, h3, lookupA]
        · simp [h1, h2, lookupA, ih]

theorem acceptorStep_frame (peeks : List PeekResult) :
    ∀ (srv : UdpServer) (now k : Nat),
      k ∉ srv.keysToDelete → (lookupA srv.peers k).isSome = true →
      (lookupA ((acceptorStep srv now peeks).server).peers k).isSome = true := by
  induction peeks with
  | nil =>
      intro srv now k hk hs
      simp [acceptorStep, StepResult.server, cleanDeadKeys_lookup, hk, hs]
  | cons p rest ih =>
      intro srv now k hk hs
      have hlook : (lookupA (cleanDeadKeys srv).peers k).isSome = true := by
        simp [cleanDeadKeys_lookup, hk, hs]
      cases p with
      | err c =>
          simp [acceptorStep, StepResult.server, hlook]
      | ok addr =>
          simp only [acceptorStep]
          cases hio : lookupA (cleanDeadKeys srv).peers addr with
          | some io =>
              simp only [hio]
              apply ih
              · simp [cleanDeadKeys_queue]
              · simpa [lookupA_updateKey_isSome] using hlook
          | none =>
              simp only [hio, StepResult.server]
              by_cases haddr : addr = k
              · simp [lookupA, haddr]
              · simp [lookupA, haddr, hlook]

/-- C6: the registry sweep removes from the peer map exactly the addresses
listed in the deletion queue and leaves the queue empty; entries whose key is
not in the queue are unchanged; and across a whole acceptor iteration
(which invokes the sweep at the top of the loop) no key outside the deletion
queue is ever removed from the map, so the sweep is the only removal site. -/
theorem c6_sweep_exact_and_sole_removal :
    (∀ (srv : UdpServer) (k : Nat),
        lookupA (cleanDeadKeys srv).peers k =
          if k ∈ srv.keysToDelete then none else lookupA srv.peers k) ∧
    (∀ srv : UdpServer, (cleanDeadKeys srv).keysToDelete = []) ∧
    (∀ (srv : UdpServer) (now k : Nat) (peeks : List PeekResult),
        k ∉ srv.keysToDelete → (lookupA srv.peers k).isSome = true →
        (lookupA ((acceptorStep srv now peeks).server).peers k).isSome = true) :=
  ⟨cleanDeadKeys_lookup, cleanDeadKeys_queue,
    fun srv now k peeks h1 h2 => acceptorStep_frame peeks srv now k h1 h2⟩

/-- Witness for C6 at a concrete registry: address 1 is not in the deletion
queue [2] and survives an acceptor iteration that sweeps and then hits a
peek error. -/
theorem c6_sweep_exact_and_sole_removal_witness :
    (lookupA
        ((acceptorStep
            { peers := [(1, { hasDataToRead := { permit := false, gen := 0 },
                              hasReadData := { permit := false, gen := 0 } })],
              keysToDelete := [2], cnxTimeout := none }
            0 [PeekResult.err 4]).server).peers 1).isSome = true :=
  c6_sweep_exact_and_sole_removal.2.2
    { peers := [(1, { hasDataToRead := { permit := false, gen := 0 },
                      hasReadData := { permit := false, gen := 0 } })],
      keysToDelete := [2], cnxTimeout := none }
    0 1 [PeekResult.err 4] (by decide) (by decide)

theorem acceptorStep_yield_ok (peeks : List PeekResult) :
    ∀ (srv : UdpServer) (now : Nat) (item : Except IoError UdpStream) (srv2 : UdpServer),
      acceptorStep srv now peeks = StepResult.yield item srv2 → ∃ s, item = Except.ok s := by
  induction peeks with
  | nil =>
      intro srv now item srv2 h
      simp [acceptorStep] at h
  | cons p rest ih =>
      intro srv now item srv2 h
      cases p with
      | err c => simp [acceptorStep] at h
      | ok addr =>
          simp only [acceptorStep] at h
          cases hio : lookupA (cleanDeadKeys srv).peers addr with
          | some io =>
              rw [hio] at h
              exact ih _ now item srv2 h
          | none =>
              rw [hio] at h
              refine ⟨newPeerStream addr (cleanDeadKeys srv).cnxTimeout now, ?_⟩
              cases h
              rfl

/-- C7: a peek error makes the unfold step of the acceptor return
end-of-stream (terminated, after the sweep that opened the iteration) rather
than retrying, and the acceptor never yields an error item. -/
theorem c7_peek_error_terminates :
    (∀ (srv : UdpServer) (now code : Nat) (rest : List PeekResult),
        acceptorStep srv now (PeekResult.err code :: rest) =
          StepResult.terminated (cleanDeadKeys srv)) ∧
    (∀ (srv : UdpServer) (now : Nat) (peeks : List PeekResult)
        (item : Except IoError UdpStream) (srv2 : UdpServer),
        acceptorStep srv now peeks = StepResult.yield item srv2 →
          ∃ s, item = Except.ok s) :=
  ⟨fun _ _ _ _ => rfl, fun srv now peeks item srv2 h => acceptorStep_yield_ok peeks srv now item srv2 h⟩

/-- Witness for C7: on an empty registry a single peek of an unknown address
yields an Ok stream, discharging the equation hypothesis of the second
conjunct concretely. -/
theorem c7_peek_error_terminates_witness :
    ∃ s, (Except.ok (newPeerStream 3 none 0) : Except IoError UdpStream) = Except.ok s :=
  c7_peek_error_terminates.2
    { peers := [], keysToDelete := [], cnxTimeout := none } 0 [PeekResult.ok 3]
    (Except.ok (newPeerStream 3 none 0))
    { peers := [(3, (newPeerStream 3 none 0).io)], keysToDelete := [], cnxTimeout := none }
    (by decide)

/-- C5: dropping a PeerStream pushes its peer address onto the deletion
queue when the registry is still alive, clears the pending data-available
subscription while the gate is still held, and signals data-consumed on the
gate; with a dead registry no enqueue happens and the (total) drop cannot
panic. -/
theorem c5_drop_effects (s : UdpStream) (q : List Nat) :
    (dropStream s (some q)).1 = some (q ++ [s.peer]) ∧
    (dropStream s none).1 = none ∧
    (∀ u : Option (List Nat),
        ((dropStream s u).2).pendingNotification = none ∧
        ((dropStream s u).2).io.hasReadData.permit = true) :=
  ⟨rfl, rfl, fun _ => ⟨rfl, rfl⟩⟩

/-- Counterexample for C9: with the socket not send-ready, the client-side
socket flush still returns immediate success, whereas the claim (flush is a
no-op beyond waiting for send-readiness, for both stream kinds) requires it
to stay pending. -/
theorem c9_counterexample : MyUdpSocket.pollFlush false ≠ flushSpec false := by
  decide

/-- C9 (amended): the PeerStream flush waits for send-readiness and does
nothing else; the ClientSocket flush returns success immediately without
waiting; shutdown of both performs no socket operation and returns success
immediately. -/
theorem c9_flush_shutdown :
    (∀ b : Bool, UdpStream.pollFlush b = flushSpec b) ∧
    (∀ b : Bool, MyUdpSocket.pollFlush b = Poll.ready (Except.ok ())) ∧
    UdpStream.pollShutdown = Poll.ready (Except.ok ()) ∧
    MyUdpSocket.pollShutdown = Poll.ready (Except.ok ()) :=
  ⟨fun _ => rfl, fun _ => rfl, rfl, rfl⟩

theorem recvStage_pending (s : UdpStream) (e : ReadEnv) (h : e.recv = RecvOutcome.pending) :
    recvStage s e = (Poll.pending, s) := by
  simp [recvStage, h]

theorem recvStage_peer (s : UdpStream) (e : ReadEnv) : ((recvStage s e).2).peer = s.peer := by
  cases h : e.recv <;> simp [recvStage, h]

theorem recvStage_watchdog (s : UdpStream) (e : ReadEnv) :
    ((recvStage s e).2).watchdogDeadline = s.watchdogDeadline := by
  cases h : e.recv <;> simp [recvStage, h]

theorem recvStage_not_timeout (s : UdpStream) (e : ReadEnv) :
    isTimedOutErr (recvStage s e).1 = false := by
  cases h : e.recv <;> simp [recvStage, h, isTimedOutErr, recvError]

theorem afterWatchdog_peer (s : UdpStream) (e : ReadEnv) :
    ((pollReadAfterWatchdog s e).2).peer = s.peer := by
  unfold pollReadAfterWatchdog
  cases hp : s.pendingNotification with
  | none => simp only [hp]; exact recvStage_peer s e
  | some f =>
      simp only [hp]
      cases hr : (pollNotified s.io.hasDataToRead f).1 with
      | pending => simp [hr]
      | ready u => simp only [hr]; rw [recvStage_peer]

theorem afterWatchdog_watchdog (s : UdpStream) (e : ReadEnv) :
    ((pollReadAfterWatchdog s e).2).watchdogDeadline = s.watchdogDeadline := by
  unfold pollReadAfterWatchdog
  cases hp : s.pendingNotification with
  | none => simp only [hp]; exact recvStage_watchdog s e
  | some f =>
      simp only [hp]
      cases hr : (pollNotified s.io.hasDataToRead f).1 with
      | pending => simp [hr]
      | ready u => simp only [hr]; rw [recvStage_watchdog]

theorem afterWatchdog_flag (s : UdpStream) (e : ReadEnv) (h : e.recv = RecvOutcome.pending) :
    ((pollReadAfterWatchdog s e).2).dataReadBeforeDeadline = s.dataReadBeforeDeadline := by
  unfold pollReadAfterWatchdog
  cases hp : s.pendingNotification with
  | none => simp only [hp]; rw [recvStage_pending _ _ h]
  | some f =>
      simp only [hp]
      cases hr : (pollNotified s.io.hasDataToRead f).1 with
      | pending => simp [hr]
      | ready u => simp only [hr]; rw [recvStage_pending _ _ h]

theorem afterWatchdog_not_timeout (s : UdpStream) (e : ReadEnv) :
    isTimedOutErr (pollReadAfterWatchdog s e).1 = false := by
  unfold pollReadAfterWatchdog
  cases hp : s.pendingNotification with
  | none => simp only [hp]; exact recvStage_not_timeout s e
  | some f =>
      simp only [hp]
      cases hr : (pollNotified s.io.hasDataToRead f).1 with
      | pending => simp [hr, isTimedOutErr]
      | ready u => simp only [hr]; rw [recvStage_not_timeout]

theorem pollRead_eq_afterWatchdog_of_none (s : UdpStream) (e : ReadEnv)
    (hw : s.watchdogDeadline = none) : pollRead s e = pollReadAfterWatchdog s e := by
  simp [pollRead, hw]

theorem pollRead_eq_afterWatchdog_of_quiet (s : UdpStream) (e : ReadEnv) (iv : Interval)
    (hw : s.watchdogDeadline = some iv) (hd : ¬ iv.nextDeadline ≤ e.now) :
    pollRead s e = pollReadAfterWatchdog s e := by
  simp [pollRead, hw, hd]

theorem pollRead_peer (s : UdpStream) (e : ReadEnv) : ((pollRead s e).2).peer = s.peer := by
  cases hw : s.watchdogDeadline with
  | none => rw [pollRead_eq_afterWatchdog_of_none s e hw]; exact afterWatchdog_peer s e
  | some iv =>
      by_cases hd : iv.nextDeadline ≤ e.now
      · by_cases hf : s.dataReadBeforeDeadline = true <;> simp [pollRead, hw, hd, hf]
      · rw [pollRead_eq_afterWatchdog_of_quiet s e iv hw hd]; exact afterWatchdog_peer s e

theorem pollRead_flag_false (s : UdpStream) (e : ReadEnv)
    (hf : s.dataReadBeforeDeadline = false) (hr : e.recv = RecvOutcome.pending) :
    ((pollRead s e).2).dataReadBeforeDeadline = false := by
  cases hw : s.watchdogDeadline with
  | none =>
      rw [pollRead_eq_afterWatchdog_of_none s e hw, afterWatchdog_flag s e hr]
      exact hf
  | some iv =>
      by_cases hd : iv.nextDeadline ≤ e.now
      · simp [pollRead, hw, hd, hf]
      · rw [pollRead_eq_afterWatchdog_of_quiet s e iv hw hd, afterWatchdog_flag s e hr]
        exact hf

theorem pollRead_timeout (s : UdpStream) (e : ReadEnv) (iv : Interval)
    (hw : s.watchdogDeadline = some iv) (hf : s.dataReadBeforeDeadline = false)
    (hd : iv.nextDeadline ≤ e.now) :
    pollRead s e =
      (Poll.ready (Except.error (timeoutError s.peer)),
        { s with watchdogDeadline := some (Interval.mk (iv.nextDeadline + iv.period) iv.period) }) := by
  simp [pollRead, hw, hd, hf]

theorem pollRead_not_timeout_of_quiet (s : UdpStream) (e : ReadEnv) (iv : Interval)
    (hw : s.watchdogDeadline = some iv) (hn : e.now < iv.nextDeadline) :
    isTimedOutErr (pollRead s e).1 = false := by
  have hd : ¬ iv.nextDeadline ≤ e.now := by omega
  rw [pollRead_eq_afterWatchdog_of_quiet s e iv hw hd]
  exact afterWatchdog_not_timeout s e

theorem pollRead_watchdog_advance (s : UdpStream) (e : ReadEnv) (iv : Interval)
    (hw : s.watchdogDeadline = some iv) :
    ∃ iv2, ((pollRead s e).2).watchdogDeadline = some iv2 ∧
      iv.nextDeadline ≤ iv2.nextDeadline ∧ iv2.period = iv.period := by
  by_cases hd : iv.nextDeadline ≤ e.now
  · by_cases hf : s.dataReadBeforeDeadline = true
    · by_cases hd2 : iv.nextDeadline + iv.period ≤ e.now
      · refine ⟨Interval.mk (iv.nextDeadline + iv.period + iv.period) iv.period, ?_, by dsimp; omega, rfl⟩
        simp [pollRead, hw, hd, hf, Interval.pollTick, hd2]
      · refine ⟨Interval.mk (iv.nextDeadline + iv.period) iv.period, ?_, by dsimp; omega, rfl⟩
        simp [pollRead, hw, hd, hf, Interval.pollTick, hd2]
    · refine ⟨Interval.mk (iv.nextDeadline + iv.period) iv.period, ?_, by dsimp; omega, rfl⟩
      simp [pollRead, hw, hd, hf]
  · refine ⟨iv, ?_, le_refl _, rfl⟩
    rw [pollRead_eq_afterWatchdog_of_quiet s e iv hw hd, afterWatchdog_watchdog]
    exact hw

theorem pollNotified_ready (n : Notify) (f : Notified) (h : notifReadyB n f = true) :
    (pollNotified n f).1 = Poll.ready () := by
  unfold notifReadyB at h
  cases hs : f.state with
  | done => simp [pollNotified, hs]
  | init =>
      rw [hs] at h
      by_cases hg : f.gen ≠ n.gen
      · simp [pollNotified, hs, hg]
      · have hperm : n.permit = true := by
          simp [hg] at h
          exact h
        simp [pollNotified, hs, hg, hperm]

theorem pollRead_receive (s : UdpStream) (e : ReadEnv) (f : Notified) (sender len : Nat)
    (ht : tickNotFiredB s e.now = true)
    (hpend : s.pendingNotification = some f)
    (hn : notifReadyB s.io.hasDataToRead f = true)
    (hrecv : e.recv = RecvOutcome.ok sender len) :
    (pollRead s e).1 = Poll.ready (Except.ok len) := by
  have hstep : pollRead s e = pollReadAfterWatchdog s e := by
    cases hw : s.watchdogDeadline with
    | none => exact pollRead_eq_afterWatchdog_of_none s e hw
    | some iv =>
        have hq : e.now < iv.nextDeadline := by
          unfold tickNotFiredB at ht
          rw [hw] at ht
          exact of_decide_eq_true ht
        exact pollRead_eq_afterWatchdog_of_quiet s e iv hw (by omega)
  rw [hstep]
  unfold pollReadAfterWatchdog
  simp only [hpend]
  have hr := pollNotified_ready s.io.hasDataToRead f hn
  simp only [hr]
  simp [recvStage, hrecv]

theorem readTrace_quiet (envs : List ReadEnv) :
    ∀ s : UdpStream,
      s.dataReadBeforeDeadline = false →
      (∀ e ∈ envs, e.recv = RecvOutcome.pending) →
      ∀ t ∈ readTrace s envs, t.tickObserved = true →
        t.result = Poll.ready (Except.error (timeoutError s.peer)) := by
  induction envs with
  | nil =>
      intro s _ _ t ht
      simp [readTrace] at ht
  | cons e es ih =>
      intro s hf hp t ht hobs
      simp only [readTrace, List.mem_cons] at ht
      rcases ht with ht | ht
      · rw [ht] at hobs ⊢
        dsimp only at hobs ⊢
        cases hw : s.watchdogDeadline with
        | none =>
            rw [hw] at hobs
            simp at hobs
        | some iv =>
            rw [hw] at hobs
            simp only [decide_eq_true_eq] at hobs
            rw [pollRead_timeout s e iv hw hf hobs]
      · have hf2 : ((pollRead s e).2).dataReadBeforeDeadline = false :=
          pollRead_flag_false s e hf (hp e (by simp))
        have hres := ih (pollRead s e).2 hf2 (fun x hx => hp x (by simp [hx])) t ht hobs
        rw [pollRead_peer] at hres
        exact hres

/-- C1: with a configured watchdog, a read that observes a fired tick while
the activity flag is unset fails with the TimedOut error carrying the peer
address; and with no further incoming data, every subsequent read of the
resulting stream that observes a later tick also fails with the same TimedOut
error. -/
theorem c1_watchdog_timeout_persists (s : UdpStream) (iv : Interval) (env : ReadEnv)
    (hw : s.watchdogDeadline = some iv)
    (hf : s.dataReadBeforeDeadline = false)
    (hd : iv.nextDeadline ≤ env.now) :
    (pollRead s env).1 = Poll.ready (Except.error (timeoutError s.peer)) ∧
    ∀ envs : List ReadEnv, (∀ e ∈ envs, e.recv = RecvOutcome.pending) →
      ∀ t ∈ readTrace (pollRead s env).2 envs, t.tickObserved = true →
        t.result = Poll.ready (Except.error (timeoutError s.peer)) := by
  have hstep := pollRead_timeout s env iv hw hf hd
  constructor
  · rw [hstep]
  · intro envs hp t ht hobs
    have hf2 : ((pollRead s env).2).dataReadBeforeDeadline = false := by
      rw [hstep]
      exact hf
    have hres := readTrace_quiet envs (pollRead s env).2 hf2 hp t ht hobs
    rw [pollRead_peer] at hres
    exact hres

/-- Witness for C1: a concrete stream with deadline 5 polled at time 7 with
the activity flag unset fails with the TimedOut error for peer 9. -/
theorem c1_watchdog_timeout_persists_witness :
    (pollRead
        { peer := 9, watchdogDeadline := some (Interval.mk 5 3),
          dataReadBeforeDeadline := false,
          pendingNotification := some { gen := 0, state := NotifiedState.init },
          io := { hasDataToRead := { permit := false, gen := 0 },
                  hasReadData := { permit := false, gen := 0 } } }
        { now := 7, recv := RecvOutcome.pending }).1 =
      Poll.ready (Except.error (timeoutError 9)) :=
  (c1_watchdog_timeout_persists
      { peer := 9, watchdogDeadline := some (Interval.mk 5 3),
        dataReadBeforeDeadline := false,
        pendingNotification := some { gen := 0, state := NotifiedState.init },
        io := { hasDataToRead := { permit := false, gen := 0 },
                hasReadData := { permit := false, gen := 0 } } }
      (Interval.mk 5 3) { now := 7, recv := RecvOutcome.pending }
      rfl rfl (by decide)).1

/-- C2: with a configured watchdog, a read that observes a fired tick while
the activity flag is set clears the flag, rearms the watchdog (the deadline
strictly advances) and returns Pending without failing; the read attempt is
not abandoned: the pending data-available subscription and the gate are left
intact, and a later poll of the same stream in which the subscription is
ready and a datagram is available completes the read with the received byte
count. -/
theorem c2_watchdog_activity_continues (s : UdpStream) (iv : Interval) (f : Notified)
    (e1 : ReadEnv)
    (hw : s.watchdogDeadline = some iv)
    (hf : s.dataReadBeforeDeadline = true)
    (hd : iv.nextDeadline ≤ e1.now)
    (hper : 0 < iv.period)
    (hpend : s.pendingNotification = some f) :
    (pollRead s e1).1 = Poll.pending ∧
    ((pollRead s e1).2).dataReadBeforeDeadline = false ∧
    (∃ iv2, ((pollRead s e1).2).watchdogDeadline = some iv2 ∧
        iv.nextDeadline < iv2.nextDeadline ∧ iv2.period = iv.period) ∧
    ((pollRead s e1).2).pendingNotification = some f ∧
    ((pollRead s e1).2).io = s.io ∧
    (∀ (e2 : ReadEnv) (sender len : Nat),
        tickNotFiredB ((pollRead s e1).2) e2.now = true →
        notifReadyB s.io.hasDataToRead f = true →
        e2.recv = RecvOutcome.ok sender len →
        (pollRead ((pollRead s e1).2) e2).1 = Poll.ready (Except.ok len)) := by
  have hstep : pollRead s e1 =
      (Poll.pending,
        { s with
            dataReadBeforeDeadline := false
            watchdogDeadline :=
              some ((Interval.mk (iv.nextDeadline + iv.period) iv.period).pollTick e1.now).2 }) := by
    simp [pollRead, hw, hd, hf]
  refine ⟨by rw [hstep], by rw [hstep], ?_, by rw [hstep]; exact hpend, by rw [hstep], ?_⟩
  · rw [hstep]
    by_cases hd2 : iv.nextDeadline + iv.period ≤ e1.now
    · exact ⟨Interval.mk (iv.nextDeadline + iv.period + iv.period) iv.period,
        by simp [Interval.pollTick, hd2], by dsimp; omega, rfl⟩
    · exact ⟨Interval.mk (iv.nextDeadline + iv.period) iv.period,
        by simp [Interval.pollTick, hd2], by dsimp; omega, rfl⟩
  · intro e2 sender len ht hn hrecv
    refine pollRead_receive ((pollRead s e1).2) e2 f sender len ht ?_ ?_ hrecv
    · rw [hstep]
      exact hpend
    · rw [hstep]
      exact hn

/-- Witness for C2: a concrete stream with a fired tick and the activity
flag set returns Pending, and the follow-up poll with a ready subscription
and an available datagram reads 5 bytes. -/
theorem c2_watchdog_activity_continues_witness :
    (pollRead
        { peer := 9, watchdogDeadline := some (Interval.mk 5 3),
          dataReadBeforeDeadline := true,
          pendingNotification := some { gen := 0, state := NotifiedState.done },
          io := { hasDataToRead := { permit := false, gen := 0 },
                  hasReadData := { permit := false, gen := 0 } } }
        { now := 7, recv := RecvOutcome.pending }).1 = Poll.pending :=
  (c2_watchdog_activity_continues
      { peer := 9, watchdogDeadline := some (Interval.mk 5 3),
        dataReadBeforeDeadline := true,
        pendingNotification := some { gen := 0, state := NotifiedState.done },
        io := { hasDataToRead := { permit := false, gen := 0 },
                hasReadData := { permit := false, gen := 0 } } }
      (Interval.mk 5 3) { gen := 0, state := NotifiedState.done }
      { now := 7, recv := RecvOutcome.pending }
      rfl rfl (by decide) (by decide) rfl).1

/-- C3: when the acceptor sees an address absent from the registry it mints
the gate and the stream, latches data-available via notify_waiters before
inserting the gate into the registry and yielding the stream; consequently
the yielded stream is registered under its address and its very first poll
of read, with the pending datagram available, completes immediately with the
received byte count instead of blocking on the gate. -/
theorem c3_new_peer_first_read_immediate (srv : UdpServer) (now addr : Nat)
    (rest : List PeekResult)
    (h : lookupA (cleanDeadKeys srv).peers addr = none) :
    (acceptorStep srv now (PeekResult.ok addr :: rest) =
        StepResult.yield (Except.ok (newPeerStream addr srv.cnxTimeout now))
          { cleanDeadKeys srv with
              peers := (addr, (newPeerStream addr srv.cnxTimeout now).io) ::
                (cleanDeadKeys srv).peers }) ∧
    lookupA ((addr, (newPeerStream addr srv.cnxTimeout now).io) ::
        (cleanDeadKeys srv).peers) addr =
      some (newPeerStream addr srv.cnxTimeout now).io ∧
    (∀ (env : ReadEnv) (sender len : Nat),
        tickNotFiredB (newPeerStream addr srv.cnxTimeout now) env.now = true →
        env.recv = RecvOutcome.ok sender len →
        (pollRead (newPeerStream addr srv.cnxTimeout now) env).1 =
          Poll.ready (Except.ok len)) := by
  refine ⟨?_, by simp [lookupA], ?_⟩
  · have hcnx := cleanDeadKeys_cnx srv
    simp only [acceptorStep, h, hcnx]
  · intro env sender len ht hrecv
    exact pollRead_receive (newPeerStream addr srv.cnxTimeout now) env
      { gen := 0, state := NotifiedState.init } sender len ht rfl rfl hrecv

/-- Witness for C3: on an empty registry, the stream minted for address 3
reads the pending 5-byte datagram on its very first poll. -/
theorem c3_new_peer_first_read_immediate_witness :
    (pollRead (newPeerStream 3 none 0) { now := 0, recv := RecvOutcome.ok 3 5 }).1 =
      Poll.ready (Except.ok 5) :=
  (c3_new_peer_first_read_immediate
      { peers := [], keysToDelete := [], cnxTimeout := none } 0 3 [] (by decide)).2.2
    { now := 0, recv := RecvOutcome.ok 3 5 } 3 5 (by decide) rfl

theorem recvStage_ok_post (s : UdpStream) (e : ReadEnv) (n : Nat)
    (h : (recvStage s e).1 = Poll.ready (Except.ok n)) :
    ((recvStage s e).2).dataReadBeforeDeadline = true ∧
    ((recvStage s e).2).pendingNotification =
      some (((recvStage s e).2).io.hasDataToRead.notified) ∧
    ((recvStage s e).2).io.hasReadData.permit = true := by
  cases hr : e.recv with
  | pending => simp [recvStage, hr] at h
  | err c => simp [recvStage, hr] at h
  | ok sender len =>
      refine ⟨?_, ?_, ?_⟩ <;> simp [recvStage, hr, Notify.notifyOne]

theorem afterWatchdog_ok_post (s : UdpStream) (e : ReadEnv) (n : Nat)
    (h : (pollReadAfterWatchdog s e).1 = Poll.ready (Except.ok n)) :
    ((pollReadAfterWatchdog s e).2).dataReadBeforeDeadline = true ∧
    ((pollReadAfterWatchdog s e).2).pendingNotification =
      some (((pollReadAfterWatchdog s e).2).io.hasDataToRead.notified) ∧
    ((pollReadAfterWatchdog s e).2).io.hasReadData.permit = true := by
  unfold pollReadAfterWatchdog at h ⊢
  cases hp : s.pendingNotification with
  | none =>
      simp only [hp] at h ⊢
      exact recvStage_ok_post s e n h
  | some f =>
      simp only [hp] at h ⊢
      cases hr : (pollNotified s.io.hasDataToRead f).1 with
      | pending => simp [hr] at h
      | ready u =>
          simp only [hr] at h ⊢
          exact recvStage_ok_post _ e n h

/-- C4: every successful read establishes, before returning the byte count,
exactly these postconditions: the activity flag is set, a fresh
data-available subscription on the gate is in place for the next round, and
data-consumed is signalled on the gate. -/
theorem c4_successful_read_postconditions (s : UdpStream) (env : ReadEnv) (n : Nat)
    (h : (pollRead s env).1 = Poll.ready (Except.ok n)) :
    ((pollRead s env).2).dataReadBeforeDeadline = true ∧
    ((pollRead s env).2).pendingNotification =
      some (((pollRead s env).2).io.hasDataToRead.notified) ∧
    ((pollRead s env).2).io.hasReadData.permit = true := by
  cases hw : s.watchdogDeadline with
  | none =>
      rw [pollRead_eq_afterWatchdog_of_none s env hw] at h ⊢
      exact afterWatchdog_ok_post s env n h
  | some iv =>
      by_cases hd : iv.nextDeadline ≤ env.now
      · by_cases hf : s.dataReadBeforeDeadline = true
        · simp [pollRead, hw, hd, hf] at h
        · simp [pollRead, hw, hd, hf, timeoutError] at h
      · rw [pollRead_eq_afterWatchdog_of_quiet s env iv hw hd] at h ⊢
        exact afterWatchdog_ok_post s env n h

/-- Witness for C4: a concrete successful 5-byte read sets the flag,
installs a fresh subscription and latches the data-consumed signal. -/
theorem c4_successful_read_postconditions_witness :
    ((pollRead
        { peer := 1, watchdogDeadline := none, dataReadBeforeDeadline := false,
          pendingNotification := none,
          io := { hasDataToRead := { permit := false, gen := 0 },
                  hasReadData := { permit := false, gen := 0 } } }
        { now := 0, recv := RecvOutcome.ok 1 5 }).2).dataReadBeforeDeadline = true ∧
    ((pollRead
        { peer := 1, watchdogDeadline := none, dataReadBeforeDeadline := false,
          pendingNotification := none,
          io := { hasDataToRead := { permit := false, gen := 0 },
                  hasReadData := { permit := false, gen := 0 } } }
        { now := 0, recv := RecvOutcome.ok 1 5 }).2).pendingNotification =
      some (((pollRead
        { peer := 1, watchdogDeadline := none, dataReadBeforeDeadline := false,
          pendingNotification := none,
          io := { hasDataToRead := { permit := false, gen := 0 },
                  hasReadData := { permit := false, gen := 0 } } }
        { now := 0, recv := RecvOutcome.ok 1 5 }).2).io.hasDataToRead.notified) ∧
    ((pollRead
        { peer := 1, watchdogDeadline := none, dataReadBeforeDeadline := false,
          pendingNotification := none,
          io := { hasDataToRead := { permit := false, gen := 0 },
                  hasReadData := { permit := false, gen := 0 } } }
        { now := 0, recv := RecvOutcome.ok 1 5 }).2).io.hasReadData.permit = true :=
  c4_successful_read_postconditions
    { peer := 1, watchdogDeadline := none, dataReadBeforeDeadline := false,
      pendingNotification := none,
      io := { hasDataToRead := { permit := false, gen := 0 },
              hasReadData := { permit := false, gen := 0 } } }
    { now := 0, recv := RecvOutcome.ok 1 5 } 5 (by decide)

theorem pollResults_no_timeout (envs : List ReadEnv) :
    ∀ (s : UdpStream) (bound : Nat),
      (∀ e ∈ envs, e.now < bound) →
      (∃ iv, s.watchdogDeadline = some iv ∧ bound ≤ iv.nextDeadline) →
      ∀ r ∈ pollResults s envs, isTimedOutErr r = false := by
  induction envs with
  | nil =>
      intro s bound _ _ r hr
      simp [pollResults] at hr
  | cons e es ih =>
      intro s bound hb hiv r hr
      obtain ⟨iv, hw, hbd⟩ := hiv
      simp only [pollResults, List.mem_cons] at hr
      rcases hr with hr | hr
      · rw [hr]
        have hn : e.now < iv.nextDeadline := lt_of_lt_of_le (hb e (by simp)) hbd
        exact pollRead_not_timeout_of_quiet s e iv hw hn
      · obtain ⟨iv2, hw2, hle, _⟩ := pollRead_watchdog_advance s e iv hw
        exact ih (pollRead s e).2 bound (fun x hx => hb x (by simp [hx]))
          ⟨iv2, hw2, le_trans hbd hle⟩ r hr

/-- C10: a stream created with idle interval T has its first watchdog tick
scheduled a full interval after creation (deadline t0 + T), and no poll of
read performed strictly before t0 + T can return a TimedOut error, whatever
data does or does not arrive. -/
theorem c10_first_tick_after_full_interval (peer T t0 : Nat) (envs : List ReadEnv)
    (h : ∀ e ∈ envs, e.now < t0 + T) :
    (UdpStream.new peer (some T) t0).watchdogDeadline = some (Interval.mk (t0 + T) T) ∧
    ∀ r ∈ pollResults (UdpStream.new peer (some T) t0) envs, isTimedOutErr r = false := by
  refine ⟨rfl, ?_⟩
  exact pollResults_no_timeout envs _ (t0 + T) h ⟨Interval.mk (t0 + T) T, rfl, le_refl _⟩

/-- Witness for C10: a stream created at time 0 with interval 10 polled at
time 3 with no data does not fail with a timeout. -/
theorem c10_first_tick_after_full_interval_witness :
    isTimedOutErr
        (pollRead (UdpStream.new 1 (some 10) 0) { now := 3, recv := RecvOutcome.pending }).1 =
      false :=
  (c10_first_tick_after_full_interval 1 10 0
      [{ now := 3, recv := RecvOutcome.pending }] (by decide)).2
    (pollRead (UdpStream.new 1 (some 10) 0) { now := 3, recv := RecvOutcome.pending }).1
    (by simp [pollResults])

theorem connectLoop_fst (attempt : Addr → ConnectAttempt) :
    ∀ (addrs : List Addr) (le : Option Nat),
      (connectLoop attempt addrs le).1 =
        addrs.find? (fun a => decide (attempt a = ConnectAttempt.ok)) := by
  intro addrs
  induction addrs with
  | nil => intro le; rfl
  | cons a rest ih =>
      intro le
      cases h : attempt a with
      | ok =>
          rw [List.find?_cons_of_pos _ (by simp [h])]
          simp [connectLoop, h]
      | bindErr c =>
          rw [List.find?_cons_of_neg _ (by simp [h])]
          simp [connectLoop, h, ih]
      | connErr c =>
          rw [List.find?_cons_of_neg _ (by simp [h])]
          simp [connectLoop, h, ih]
      | timedOut =>
          rw [List.find?_cons_of_neg _ (by simp [h])]
          simp [connectLoop, h, ih]

theorem connectLoop_snd (attempt : Addr → ConnectAttempt) :
    ∀ (addrs : List Addr) (le : Option Nat),
      (connectLoop attempt addrs le).1 = none →
      (connectLoop attempt addrs le).2 = lastConnErrAux attempt addrs le := by
  intro addrs
  induction addrs with
  | nil => intro le _; rfl
  | cons a rest ih =>
      intro le h
      cases ha : attempt a with
      | ok => simp [connectLoop, ha] at h
      | bindErr c =>
          simp only [connectLoop, ha] at h ⊢
          simp only [lastConnErrAux, ha]
          exact ih le h
      | connErr c =>
          simp only [connectLoop, ha] at h ⊢
          simp only [lastConnErrAux, ha]
          exact ih (some c) h
      | timedOut =>
          simp only [connectLoop, ha] at h ⊢
          simp only [lastConnErrAux, ha]
          exact ih le h

theorem attemptTrace_family (attempt : Addr → ConnectAttempt) :
    ∀ addrs : List Addr, ∀ pr ∈ attemptTrace attempt addrs, pr.2 = bindFamily pr.1 := by
  intro addrs
  induction addrs with
  | nil => intro pr h; simp [attemptTrace] at h
  | cons a rest ih =>
      intro pr h
      simp only [attemptTrace, List.mem_cons] at h
      rcases h with h | h
      · rw [h]
      · cases ha : attempt a <;> rw [ha] at h
        · simp at h
        all_goals exact ih pr h

/-- Counterexample for C8: with candidates [a1, a2] where the connect to a1
fails with error 7 and the bind for a2 fails with error 9, the code fails
carrying 7 (the last connect error), while the last error observed across
candidates in the sense of the claim (covering bind failures too) is 9. -/
theorem c8_counterexample :
    connect { resolved := Except.ok [Addr.mk false 1, Addr.mk false 2],
              attempt := fun a =>
                if a.id = 1 then ConnectAttempt.connErr 7 else ConnectAttempt.bindErr 9 } =
      ConnectResult.exhausted (some 7) ∧
    lastErrorObservedSpec
        (fun a => if a.id = 1 then ConnectAttempt.connErr 7 else ConnectAttempt.bindErr 9)
        [Addr.mk false 1, Addr.mk false 2] none = some 9 ∧
    connect { resolved := Except.ok [Addr.mk false 1, Addr.mk false 2],
              attempt := fun a =>
                if a.id = 1 then ConnectAttempt.connErr 7 else ConnectAttempt.bindErr 9 } ≠
      ConnectResult.exhausted
        (lastErrorObservedSpec
          (fun a => if a.id = 1 then ConnectAttempt.connErr 7 else ConnectAttempt.bindErr 9)
          [Addr.mk false 1, Addr.mk false 2] none) := by
  refine ⟨rfl, rfl, ?_⟩
  decide

/-- C8 (amended): connect tries the resolved candidates in order, binding a
fresh local socket of the matching family for each attempted candidate; it
returns the first candidate whose connect succeeds; when every candidate is
exhausted it fails carrying the last error returned by a connect attempt:
bind failures and per-attempt timeouts are skipped without updating the
recorded error, and a resolve failure is returned directly. -/
theorem c8_connect_first_success_last_connect_error (env : ConnectEnv) :
    (connect env =
        match env.resolved with
        | Except.error e => ConnectResult.resolveErr e
        | Except.ok addrs =>
            match addrs.find? (fun a => decide (env.attempt a = ConnectAttempt.ok)) with
            | some a => ConnectResult.ok a
            | none => ConnectResult.exhausted (lastConnErr env.attempt addrs)) ∧
    (∀ addrs : List Addr, env.resolved = Except.ok addrs →
        ∀ pr ∈ attemptTrace env.attempt addrs, pr.2 = bindFamily pr.1) := by
  constructor
  · unfold connect
    cases hres : env.resolved with
    | error e => rfl
    | ok addrs =>
        rcases hcl : connectLoop env.attempt addrs none with ⟨c, le⟩
        have h1 : addrs.find? (fun a => decide (env.attempt a = ConnectAttempt.ok)) = c := by
          rw [← connectLoop_fst env.attempt addrs none, hcl]
        cases c with
        | some a => simp only [hcl, h1]
        | none =>
            have h2 : le = lastConnErrAux env.attempt addrs none := by
              have := connectLoop_snd env.attempt addrs none (by rw [hcl])
              rw [hcl] at this
              exact this
            simp only [hcl, h1, lastConnErr, h2]
  · intro addrs _ pr hpr
    exact attemptTrace_family env.attempt addrs pr hpr

/-- Witness for C8: the family recorded for the first attempted candidate of
a concrete environment matches that candidate's family. -/
theorem c8_connect_first_success_last_connect_error_witness :
    ((Addr.mk true 4, true) : Addr × Bool).2 = bindFamily (Addr.mk true 4, true).1 :=
  (c8_connect_first_success_last_connect_error
      { resolved := Except.ok [Addr.mk true 4],
        attempt := fun _ => ConnectAttempt.timedOut }).2
    [Addr.mk true 4] rfl (Addr.mk true 4, true) (by simp [attemptTrace, bindFamily])

end Udp
